import Mathlib

/-!
Verification of the Planaria particle-simulation core (mask_painter package).

The Python source is shallowly embedded: real-valued quantities are modelled
as rationals wherever the source computes with field operations and
comparisons only; the one routine that intrinsically needs a square root
(Particle.reflect_at_boundary) is modelled over the reals.  Stateful methods
become functions from the state structure to an updated state (plus the
returned value), and calls to the global pseudo-random source are modelled by
an explicit stream of draws together with a cursor index.
-/

/-- The Python int() conversion truncates toward zero: floor for nonnegative
arguments and ceiling for negative ones. -/
def pyInt (q : ℚ) : ℤ :=
  if 0 ≤ q then ⌊q⌋ else ⌈q⌉

/-- The Python range(a, b) over integers: a, a+1, ..., b-1 (empty when b ≤ a). -/
def intRange (a b : ℤ) : List ℤ :=
  (List.range (b - a).toNat).map (fun k : ℕ => a + (k : ℤ))

/-! ## ParticleSpawner (spawner.py)

Fields mirror ParticleSpawner.__init__ (spawner.py lines 12-28).  The
constructor stores spawn_count and spawn_interval exactly as supplied; only
the setters clamp.  The counter starts at 0 and the spawner starts active. -/

structure ParticleSpawner where
  x : ℚ
  y : ℚ
  spawn_count : ℤ
  spawn_interval : ℤ
  step_counter : ℤ
  is_active : Bool
deriving Repr, DecidableEq

/-- ParticleSpawner.__init__: note that spawn_count and spawn_interval are
stored unclamped (the Python assigns the raw arguments). -/
def ParticleSpawner.init (x y : ℚ) (spawn_count spawn_interval : ℤ) :
    ParticleSpawner :=
  { x := x, y := y, spawn_count := spawn_count,
    spawn_interval := spawn_interval, step_counter := 0, is_active := true }

/-- ParticleSpawner.set_position. -/
def ParticleSpawner.set_position (s : ParticleSpawner) (x y : ℚ) :
    ParticleSpawner :=
  { s with x := x, y := y }

/-- ParticleSpawner.set_spawn_count: clamps the input up to 1. -/
def ParticleSpawner.set_spawn_count (s : ParticleSpawner) (count : ℤ) :
    ParticleSpawner :=
  { s with spawn_count := max 1 count }

/-- ParticleSpawner.set_spawn_interval: clamps the input up to 1. -/
def ParticleSpawner.set_spawn_interval (s : ParticleSpawner) (interval : ℤ) :
    ParticleSpawner :=
  { s with spawn_interval := max 1 interval }

/-- ParticleSpawner.should_spawn (spawner.py lines 71-88).  The optional
current_step argument is modelled by an Option; the simulation loop always
calls it with none.  The inactive early return happens before any counter
update.  When active and called with none, the counter is incremented first
and the result compares the new counter modulo spawn_interval (Python raises
ZeroDivisionError when spawn_interval is 0; the claims only concern
spawn_interval at least 1). -/
def ParticleSpawner.should_spawn (s : ParticleSpawner)
    (current_step : Option ℤ) : Bool × ParticleSpawner :=
  if s.is_active = false then (false, s)
  else
    match current_step with
    | some cs => (decide (cs % s.spawn_interval = 0), s)
    | none =>
      let c := s.step_counter + 1
      (decide (c % s.spawn_interval = 0), { s with step_counter := c })

/-- ParticleSpawner.reset_step_counter. -/
def ParticleSpawner.reset_step_counter (s : ParticleSpawner) :
    ParticleSpawner :=
  { s with step_counter := 0 }

/-- ParticleSpawner.set_active. -/
def ParticleSpawner.set_active (s : ParticleSpawner) (active : Bool) :
    ParticleSpawner :=
  { s with is_active := active }

/-- Optional fields of the spawner section of a configuration dictionary, as
consumed by ParticleSpawner.update_from_config. -/
structure SpawnerConfig where
  x : Option ℚ
  y : Option ℚ
  spawn_count : Option ℤ
  spawn_interval : Option ℤ

/-- ParticleSpawner.update_from_config: position fields are assigned
directly, while count and interval go through the clamping setters. -/
def ParticleSpawner.update_from_config (s : ParticleSpawner)
    (cfg : SpawnerConfig) : ParticleSpawner :=
  let s1 := match cfg.x with
    | some v => { s with x := v }
    | none => s
  let s2 := match cfg.y with
    | some v => { s1 with y := v }
    | none => s1
  let s3 := match cfg.spawn_count with
    | some v => s2.set_spawn_count v
    | none => s2
  match cfg.spawn_interval with
  | some v => s3.set_spawn_interval v
  | none => s3

/-- ParticleSpawner.force_spawn: zeroes the counter when active. -/
def ParticleSpawner.force_spawn (s : ParticleSpawner) :
    Bool × ParticleSpawner :=
  if s.is_active = false then (false, s)
  else (true, { s with step_counter := 0 })

/-- Results of N consecutive no-argument should_spawn calls, in call order,
together with the final spawner state. -/
def ParticleSpawner.run_should_spawn (s : ParticleSpawner) :
    ℕ → List Bool × ParticleSpawner
  | 0 => ([], s)
  | n + 1 =>
    let r := s.should_spawn none
    let rest := r.2.run_should_spawn n
    (r.1 :: rest.1, rest.2)

/-- One mutating call on a spawner, with its arguments (return values are
discarded); used to quantify over arbitrary call sequences. -/
inductive SpawnerOp where
  | setPosition (x y : ℚ)
  | setSpawnCount (n : ℤ)
  | setSpawnInterval (n : ℤ)
  | setActive (b : Bool)
  | shouldSpawn (cs : Option ℤ)
  | resetStepCounter
  | forceSpawn
  | updateFromConfig (cfg : SpawnerConfig)

/-- Apply one spawner operation to the state. -/
def ParticleSpawner.applyOp (s : ParticleSpawner) : SpawnerOp →
    ParticleSpawner
  | SpawnerOp.setPosition x y => s.set_position x y
  | SpawnerOp.setSpawnCount n => s.set_spawn_count n
  | SpawnerOp.setSpawnInterval n => s.set_spawn_interval n
  | SpawnerOp.setActive b => s.set_active b
  | SpawnerOp.shouldSpawn cs => (s.should_spawn cs).2
  | SpawnerOp.resetStepCounter => s.reset_step_counter
  | SpawnerOp.forceSpawn => (s.force_spawn).2
  | SpawnerOp.updateFromConfig cfg => s.update_from_config cfg

/-- Apply a sequence of spawner operations from left to right. -/
def ParticleSpawner.applyOps (s : ParticleSpawner) (ops : List SpawnerOp) :
    ParticleSpawner :=
  ops.foldl ParticleSpawner.applyOp s

/-! ## Divider and DividerManager (divider.py)

The color field is an opaque display attribute; it is carried as a string as
in the source.  Probabilities and positions are rationals. -/

structure Divider where
  name : String
  x : ℚ
  probability : ℚ
  color : String
deriving Repr, DecidableEq

/-- Divider.__init__ (divider.py lines 12-26): every field, including the
probability, is stored exactly as supplied, with no clamping. -/
def Divider.init (name : String) (x : ℚ) (probability : ℚ)
    (color : String) : Divider :=
  { name := name, x := x, probability := probability, color := color }

/-- Divider.is_point_in_region: true when the point is strictly to the right
of the divider line. -/
def Divider.is_point_in_region (d : Divider) (point_x : ℚ) : Bool :=
  decide (point_x > d.x)

/-- Divider.get_catch_probability. -/
def Divider.get_catch_probability (d : Divider) : ℚ :=
  d.probability

/-- Divider.set_position. -/
def Divider.set_position (d : Divider) (x : ℚ) : Divider :=
  { d with x := x }

/-- Divider.set_probability: clamps into the interval from 0 to 1. -/
def Divider.set_probability (d : Divider) (probability : ℚ) : Divider :=
  { d with probability := max 0 (min 1 probability) }

/-- Divider.set_color. -/
def Divider.set_color (d : Divider) (color : String) : Divider :=
  { d with color := color }

/-- Optional fields of one divider entry of a configuration dictionary. -/
structure DividerConfig where
  name : Option String
  x : Option ℚ
  probability : Option ℚ
  color : Option String

/-- Divider.update_from_dict: position and color are assigned directly when
present; the probability goes through the clamping setter. -/
def Divider.update_from_dict (d : Divider) (cfg : DividerConfig) : Divider :=
  let d1 := match cfg.x with
    | some v => { d with x := v }
    | none => d
  let d2 := match cfg.probability with
    | some v => d1.set_probability v
    | none => d1
  match cfg.color with
  | some v => { d2 with color := v }
  | none => d2

/-- DividerManager state: the divider list plus the governing ellipse bounds
(center_x, center_y, radius_x, radius_y). -/
structure DividerManager where
  dividers : List Divider
  planaria_bounds : ℚ × ℚ × ℚ × ℚ
deriving Repr, DecidableEq

/-- DividerManager.load_from_config (divider.py lines 120-138): clears the
list and appends one divider per configuration entry, in entry order and
without sorting, applying the source defaults for missing fields.  The
default name interpolates the running length of the list. -/
def DividerManager.load_from_config (dm : DividerManager)
    (divider_configs : List DividerConfig) : DividerManager :=
  { dm with dividers :=
      divider_configs.foldl (fun acc c =>
        acc ++ [Divider.init
          (c.name.getD ("Divider " ++ toString (acc.length + 1)))
          (c.x.getD 0) (c.probability.getD (1/10))
          (c.color.getD "#FF5722")]) [] }

/-- DividerManager.__init__: stores the bounds and loads the configured
divider entries. -/
def DividerManager.init (divider_configs : List DividerConfig)
    (planaria_bounds : ℚ × ℚ × ℚ × ℚ) : DividerManager :=
  DividerManager.load_from_config
    { dividers := [], planaria_bounds := planaria_bounds } divider_configs

/-- DividerManager.get_divider_by_name: first divider with the given name. -/
def DividerManager.get_divider_by_name (dm : DividerManager) (name : String) :
    Option Divider :=
  dm.dividers.find? (fun d => d.name == name)

/-- DividerManager.validate_position: the position must lie within the
closed x-range of the ellipse. -/
def DividerManager.validate_position (dm : DividerManager) (x : ℚ) : Bool :=
  decide (dm.planaria_bounds.1 - dm.planaria_bounds.2.2.1 ≤ x ∧
    x ≤ dm.planaria_bounds.1 + dm.planaria_bounds.2.2.1)

/-- DividerManager.add_divider (divider.py lines 140-168): fails without
mutation when the name exists or the position is invalid; otherwise appends
the new divider (built with the unclamped probability) and re-sorts the list
by x ascending (Python list.sort, a stable sort). -/
def DividerManager.add_divider (dm : DividerManager) (name : String)
    (position : ℚ) (probability : ℚ) (color : String) :
    Bool × DividerManager :=
  if (dm.get_divider_by_name name).isSome then (false, dm)
  else if dm.validate_position position = false then (false, dm)
  else
    let d := Divider.init name position probability color
    (true, { dm with dividers :=
      (dm.dividers ++ [d]).mergeSort (fun a b => decide (a.x ≤ b.x)) })

/-- DividerManager.remove_divider: removes the first divider carrying the
name, reporting whether one was found. -/
def DividerManager.remove_divider (dm : DividerManager) (name : String) :
    Bool × DividerManager :=
  match dm.get_divider_by_name name with
  | some d => (true, { dm with dividers := dm.dividers.erase d })
  | none => (false, dm)

/-- DividerManager.get_region_probability (divider.py lines 209-227):
filters the dividers whose region contains x (strictly right of the divider)
and returns the catch probability of the last of them in list order, or 0
when none applies. -/
def DividerManager.get_region_probability (dm : DividerManager) (x : ℚ) :
    ℚ :=
  let applicable := dm.dividers.filter (fun d => d.is_point_in_region x)
  match applicable.getLast? with
  | none => 0
  | some d => d.get_catch_probability

/-- DividerManager.update_planaria_bounds: stores the new bounds and prunes
dividers whose position is no longer valid. -/
def DividerManager.update_planaria_bounds (dm : DividerManager)
    (bounds : ℚ × ℚ × ℚ × ℚ) : DividerManager :=
  let dm1 : DividerManager := { dm with planaria_bounds := bounds }
  { dm1 with dividers := dm1.dividers.filter (fun d => dm1.validate_position d.x) }

/-! ## MaskSystem (mask_system.py)

The exposure grid and the particle-count grid are modelled as total
functions from index pairs (row, column) to values; the float32 cells of
the source become rationals.  In the source both grids are None until
create_mask_grid runs; the constructor calls create_mask_grid immediately,
so the model keeps total fields and the constructor overwrites them all.
The configuration plumbing (config.get with defaults) resolves the
parameters before construction; the model takes the resolved values. -/

structure MaskSystem where
  mask_resolution : ℚ
  grid_padding : ℚ
  count_particles : Bool
  center_x : ℚ
  center_y : ℚ
  radius_x : ℚ
  radius_y : ℚ
  x_min : ℚ
  x_max : ℚ
  y_min : ℚ
  y_max : ℚ
  grid_size_x : ℤ
  grid_size_y : ℤ
  mask_grid : ℤ → ℤ → ℚ
  particle_count_mask : ℤ → ℤ → ℤ

/-- MaskSystem.create_mask_grid (mask_system.py lines 49-66): recomputes the
padded bounding box, sets grid_size_x to int(mask_resolution) and
grid_size_y to int(mask_resolution * y-span / x-span) — Python int(), hence
truncation, not rounding — and zeroes both grids.  (Python would raise
ZeroDivisionError when the x-span is zero; rational division by zero yields
zero here, and every theorem below assumes a positive span.) -/
def MaskSystem.create_mask_grid (m : MaskSystem) : MaskSystem :=
  let x_min := m.center_x - m.radius_x - m.grid_padding
  let x_max := m.center_x + m.radius_x + m.grid_padding
  let y_min := m.center_y - m.radius_y - m.grid_padding
  let y_max := m.center_y + m.radius_y + m.grid_padding
  { m with
    x_min := x_min, x_max := x_max, y_min := y_min, y_max := y_max,
    grid_size_x := pyInt m.mask_resolution,
    grid_size_y := pyInt (m.mask_resolution * (y_max - y_min) / (x_max - x_min)),
    mask_grid := fun _ _ => 0,
    particle_count_mask := fun _ _ => 0 }

/-- MaskSystem.__init__ with resolved configuration values (defaults in the
source: resolution 100, padding 0, counting on, ellipse (150, 100, 150, 50));
stores the parameters and immediately creates the grid. -/
def MaskSystem.init (mask_resolution grid_padding : ℚ)
    (count_particles : Bool) (center_x center_y radius_x radius_y : ℚ) :
    MaskSystem :=
  MaskSystem.create_mask_grid
    { mask_resolution := mask_resolution, grid_padding := grid_padding,
      count_particles := count_particles,
      center_x := center_x, center_y := center_y,
      radius_x := radius_x, radius_y := radius_y,
      x_min := 0, x_max := 0, y_min := 0, y_max := 0,
      grid_size_x := 0, grid_size_y := 0,
      mask_grid := fun _ _ => 0, particle_count_mask := fun _ _ => 0 }

/-- MaskSystem.is_inside_ellipse: closed ellipse membership test. -/
def MaskSystem.is_inside_ellipse (m : MaskSystem) (x y : ℚ) : Bool :=
  decide (((x - m.center_x) / m.radius_x) ^ 2 +
    ((y - m.center_y) / m.radius_y) ^ 2 ≤ 1)

/-- MaskSystem.coord_to_grid (mask_system.py lines 85-108): world
coordinates strictly outside the bounding box map to the sentinel (-1, -1);
otherwise the affine image is truncated with int() and clamped into the
valid index range.  The result is ordered (row, column). -/
def MaskSystem.coord_to_grid (m : MaskSystem) (x y : ℚ) : ℤ × ℤ :=
  if x < m.x_min ∨ x > m.x_max ∨ y < m.y_min ∨ y > m.y_max then (-1, -1)
  else
    let grid_x := pyInt ((x - m.x_min) / (m.x_max - m.x_min) * m.grid_size_x)
    let grid_y := pyInt ((y - m.y_min) / (m.y_max - m.y_min) * m.grid_size_y)
    (max 0 (min (m.grid_size_y - 1) grid_y),
     max 0 (min (m.grid_size_x - 1) grid_x))

/-- MaskSystem.grid_to_coord (mask_system.py lines 110-123): affine image of
the cell index (true division, no truncation). -/
def MaskSystem.grid_to_coord (m : MaskSystem) (grid_y grid_x : ℤ) : ℚ × ℚ :=
  (m.x_min + ((grid_x : ℚ) / (m.grid_size_x : ℚ)) * (m.x_max - m.x_min),
   m.y_min + ((grid_y : ℚ) / (m.grid_size_y : ℚ)) * (m.y_max - m.y_min))

/-- MaskSystem._apply_exposure_circle (mask_system.py lines 162-199).  The
search window is int(radius / span * grid_size) + 1 cells in each direction;
a cell receives exposure when it is in bounds, its center is within
Euclidean distance radius of the stamp center, and its center lies inside
the ellipse.  The source compares sqrt(dist2) <= radius; for rationals this
is equivalent to 0 <= radius and dist2 <= radius^2, which is what the model
tests. -/
def MaskSystem.apply_exposure_circle (m : MaskSystem)
    (center_x center_y radius exposure : ℚ) : MaskSystem :=
  let c := m.coord_to_grid center_x center_y
  if c.1 < 0 ∨ c.2 < 0 then m
  else
    let radius_grid_x := pyInt (radius / (m.x_max - m.x_min) * m.grid_size_x) + 1
    let radius_grid_y := pyInt (radius / (m.y_max - m.y_min) * m.grid_size_y) + 1
    (intRange (-radius_grid_y) (radius_grid_y + 1)).foldl (fun acc dy =>
      (intRange (-radius_grid_x) (radius_grid_x + 1)).foldl (fun acc2 dx =>
        let grid_y := c.1 + dy
        let grid_x := c.2 + dx
        if 0 ≤ grid_y ∧ grid_y < acc2.grid_size_y ∧
            0 ≤ grid_x ∧ grid_x < acc2.grid_size_x then
          let w := acc2.grid_to_coord grid_y grid_x
          if 0 ≤ radius ∧
              (w.1 - center_x) ^ 2 + (w.2 - center_y) ^ 2 ≤ radius ^ 2 then
            if acc2.is_inside_ellipse w.1 w.2 then
              { acc2 with mask_grid := fun a b =>
                  if a = grid_y ∧ b = grid_x then acc2.mask_grid a b + exposure
                  else acc2.mask_grid a b }
            else acc2
          else acc2
        else acc2) acc) m

/-- Optional fields of the catching section of a configuration dictionary,
as read inside try_catch_particle_by_cell. -/
structure CatchingConfig where
  probability : Option ℚ
  radius : Option ℚ
  exposure : Option ℚ

/-- MaskSystem.try_catch_particle_by_cell (mask_system.py lines 125-160).
The random source is the stream rng with cursor i; the call returns the
catch flag, the updated system, and the new cursor.  A particle outside the
ellipse is rejected before any random draw; otherwise one draw u is consumed
and the catch fails when u > probability.  On a catch the exposure stamp is
applied and, when counting is enabled, the count cell at the grid position
of the particle is incremented provided the position is not the sentinel. -/
def MaskSystem.try_catch_particle_by_cell (m : MaskSystem)
    (particle_x particle_y : ℚ) (catch_params : CatchingConfig)
    (rng : ℕ → ℚ) (i : ℕ) : Bool × MaskSystem × ℕ :=
  if m.is_inside_ellipse particle_x particle_y = false then (false, m, i)
  else
    let catch_probability := catch_params.probability.getD (1/20)
    let catch_radius := catch_params.radius.getD 3
    let catch_exposure := catch_params.exposure.getD (1/5)
    let u := rng i
    if u > catch_probability then (false, m, i + 1)
    else
      let m1 := m.apply_exposure_circle particle_x particle_y
        catch_radius catch_exposure
      let m2 :=
        if m1.count_particles then
          let c := m1.coord_to_grid particle_x particle_y
          if 0 ≤ c.1 ∧ 0 ≤ c.2 then
            { m1 with particle_count_mask := fun a b =>
                if a = c.1 ∧ b = c.2 then m1.particle_count_mask a b + 1
                else m1.particle_count_mask a b }
          else m1
        else m1
      (true, m2, i + 1)

/-- MaskSystem.apply_decay (mask_system.py lines 201-215): cells strictly
below the saturation threshold are scaled by (1 - rate), then every cell is
clamped to be nonnegative. -/
def MaskSystem.apply_decay (m : MaskSystem)
    (decay_rate saturation_threshold : ℚ) : MaskSystem :=
  let decayed : ℤ → ℤ → ℚ := fun a b =>
    let v := m.mask_grid a b
    let v2 := if v < saturation_threshold then v * (1 - decay_rate) else v
    max v2 0
  { m with mask_grid := decayed }

/-! ## Particle.reflect_at_boundary (particle.py lines 55-97)

The reflection routine needs square roots (the pull-back scale and the
norm of the normal via np.hypot), so it is modelled over the reals.  Only the
kinematic fields that the routine touches are carried: the function maps
(x, y, vx, vy) to the updated (x, y, vx, vy). -/

noncomputable def reflect_at_boundary (x y vx vy : ℝ)
    (center_x center_y radius_x radius_y bounce : ℝ) : ℝ × ℝ × ℝ × ℝ :=
  let dx := x - center_x
  let dy := y - center_y
  let dist_normalized := (dx / radius_x) ^ 2 + (dy / radius_y) ^ 2
  if 1 ≤ dist_normalized then
    let scale := Real.sqrt (1 / dist_normalized) * (99 / 100)
    let x2 := center_x + dx * scale
    let y2 := center_y + dy * scale
    let nx := 2 * dx / radius_x ^ 2
    let ny := 2 * dy / radius_y ^ 2
    let norm := Real.sqrt (nx ^ 2 + ny ^ 2)
    if 0 < norm then
      let nx2 := nx / norm
      let ny2 := ny / norm
      let dot := vx * nx2 + vy * ny2
      if 0 < dot then
        let corr := (1 + bounce) * dot
        (x2, y2, vx - corr * nx2, vy - corr * ny2)
      else (x2, y2, vx, vy)
    else (x2, y2, vx, vy)
  else (x, y, vx, vy)

/-! ## Per-tick capture resolution (mask_painter.py lines 352-378)

MaskPainter.process_particle_catching iterates over a copy of the particle
list; the loop only reads particle positions and collects caught
particles into particles_to_remove, which is drained after the loop.
Object identity in Python is modelled by the index of the particle in the list
(the loop iterates the same list the manager owns, so indices identify
objects).  A trace of events records, in execution order, every evaluation
of the two capture mechanisms and every removal. -/

structure Particle where
  x : ℚ
  y : ℚ
deriving Repr, DecidableEq

/-- One observable action of process_particle_catching: the divider-region
check for the particle at an index (with its outcome), an invocation of
cell-based catching for that particle (with its outcome), or the removal of
a caught particle. -/
inductive CatchEvent where
  | regionCheck (idx : ℕ) (caught : Bool)
  | cellCheck (idx : ℕ) (caught : Bool)
  | removal (idx : ℕ)
deriving Repr, DecidableEq

/-- Index of the particle an event concerns. -/
def CatchEvent.index : CatchEvent → ℕ
  | CatchEvent.regionCheck idx _ => idx
  | CatchEvent.cellCheck idx _ => idx
  | CatchEvent.removal idx => idx

/-- Whether the event is a removal. -/
def CatchEvent.isRemoval : CatchEvent → Bool
  | CatchEvent.removal _ => true
  | _ => false

/-- The loop body of process_particle_catching for one particle: the region
probability at the x position of the particle is looked up; when it is positive a random
draw decides a region catch (the Python conjunction short-circuits, so no
draw is consumed when the probability is not positive).  Only when the
region mechanism did not catch the particle is try_catch_particle_by_cell
invoked.  Returns the caught flag, updated mask system, new rng cursor, and
the events emitted for this particle. -/
def catch_one (dm : DividerManager) (m : MaskSystem) (cfg : CatchingConfig)
    (rng : ℕ → ℚ) (i : ℕ) (idx : ℕ) (p : Particle) :
    Bool × MaskSystem × ℕ × List CatchEvent :=
  let region_probability := dm.get_region_probability p.x
  let r1 : Bool × ℕ :=
    if 0 < region_probability then (decide (rng i < region_probability), i + 1)
    else (false, i)
  if r1.1 then (true, m, r1.2, [CatchEvent.regionCheck idx true])
  else
    let r2 := m.try_catch_particle_by_cell p.x p.y cfg rng r1.2
    (r2.1, r2.2.1, r2.2.2,
      [CatchEvent.regionCheck idx false, CatchEvent.cellCheck idx r2.1])

/-- The per-particle loop: processes the particles in order, numbering them
from idx upward, threading the mask system and rng cursor, concatenating
the emitted events, and accumulating the indices queued for removal. -/
def catch_loop (dm : DividerManager) (cfg : CatchingConfig) (rng : ℕ → ℚ) :
    MaskSystem → ℕ → ℕ → List Particle →
    MaskSystem × ℕ × List CatchEvent × List ℕ
  | m, i, _, [] => (m, i, [], [])
  | m, i, idx, p :: ps =>
    let r := catch_one dm m cfg rng i idx p
    let rest := catch_loop dm cfg rng r.2.1 r.2.2.1 (idx + 1) ps
    (rest.1, rest.2.1, r.2.2.2 ++ rest.2.2.1,
      (if r.1 then [idx] else []) ++ rest.2.2.2)

/-- MaskPainter.process_particle_catching: runs the per-particle loop over
the whole list, then removes the queued particles (removal events are
appended to the trace after all check events, mirroring the second loop of
the source).  Returns the surviving particles, the updated mask system, the
new rng cursor, and the full event trace. -/
def process_particle_catching (dm : DividerManager) (m : MaskSystem)
    (cfg : CatchingConfig) (rng : ℕ → ℚ) (i : ℕ) (particles : List Particle) :
    List Particle × MaskSystem × ℕ × List CatchEvent :=
  let r := catch_loop dm cfg rng m i 0 particles
  let removed := r.2.2.2
  let survivors :=
    (particles.enum.filter (fun ip => decide (ip.1 ∉ removed))).map
      (fun ip => ip.2)
  (survivors, r.1, r.2.1, r.2.2.1 ++ removed.map CatchEvent.removal)

/-- A divider manager loaded from a configuration whose entries are not in
ascending x order: the entry at x = 20 (probability 1/2) precedes the entry
at x = 10 (probability 1/5).  DividerManager.load_from_config keeps the
entry order and does not sort. -/
def unsortedManager : DividerManager :=
  DividerManager.init
    [{ name := some "B", x := some 20, probability := some (1/2), color := none },
     { name := some "A", x := some 10, probability := some (1/5), color := none }]
    (150, 100, 150, 50)

/-- The two-divider example of the specification, built through add_divider:
dividers at x = 10 with probability 0.2 and at x = 20 with probability
0.5. -/
def exampleManager : DividerManager :=
  (((DividerManager.init [] (150, 100, 150, 50)).add_divider
      "A" 10 (1/5) "#FF5722").2.add_divider "B" 20 (1/2) "#FF5722").2

/-- The mask system built from the source defaults: resolution 100, no
padding, counting enabled, ellipse center (150, 100) and radii (150, 50).
Its bounding box is 0 to 300 in x and 50 to 150 in y, with a 33 by 100
grid. -/
def exampleMask : MaskSystem :=
  MaskSystem.init 100 0 true 150 100 150 50

/-! ## Theorems -/

/-- Helper: results of N no-argument calls on an active spawner, in closed
form in terms of the starting counter. -/
theorem run_should_spawn_closed_form (k : ℤ) :
    ∀ (N : ℕ) (s : ParticleSpawner), s.is_active = true →
      s.spawn_interval = k →
      (s.run_should_spawn N).1 =
        (List.range N).map
          (fun j : ℕ => decide ((s.step_counter + (j : ℤ) + 1) % k = 0))
  | 0, s, _, _ => by simp [ParticleSpawner.run_should_spawn]
  | N + 1, s, hact, hint => by
    have hstep :
        s.should_spawn none =
          (decide ((s.step_counter + 1) % k = 0),
            { s with step_counter := s.step_counter + 1 }) := by
      simp [ParticleSpawner.should_spawn, hact, hint]
    have hrec :=
      run_should_spawn_closed_form k N
        { s with step_counter := s.step_counter + 1 } hact hint
    simp only [ParticleSpawner.run_should_spawn, hstep, hrec,
      List.range_succ_eq_map, List.map_cons, List.map_map]
    congr 1
    · norm_num
    · apply List.map_congr_left
      intro j _
      simp only [Function.comp_apply]
      congr 2
      push_cast
      ring_nf

/-- Helper: among the first N positive integers, exactly N / k are divisible
by k. -/
theorem countP_dvd_range (k : ℕ) :
    ∀ N : ℕ, (List.range N).countP (fun j => decide (k ∣ (j + 1))) = N / k
  | 0 => by simp
  | N + 1 => by
    rw [List.range_succ, List.countP_append, countP_dvd_range k N,
      Nat.succ_div]
    by_cases h : k ∣ (N + 1) <;>
      simp [List.countP_cons, h]

/-- Helper: counting true in a list of decided propositions is counting the
elements satisfying the predicate. -/
theorem count_true_map_decide {α : Type} (p : α → Prop) [DecidablePred p]
    (l : List α) :
    (l.map (fun a => decide (p a))).count true =
      l.countP (fun a => decide (p a)) := by
  induction l with
  | nil => rfl
  | cons a t ih =>
    by_cases h : p a <;>
      simp [List.count_cons, List.countP_cons, h, ih]

/-- C5: starting from a counter at 0 on an active spawner with
spawn_interval k at least 1, N consecutive no-argument should_spawn calls
return true exactly floor(N/k) times, namely at exactly the call indices
divisible by k (the call first increments the counter, then tests
divisibility by the interval). -/
theorem spawner_periodicity (s : ParticleSpawner) (k N : ℕ)
    (hk : 1 ≤ k) (hint : s.spawn_interval = (k : ℤ))
    (hctr : s.step_counter = 0) (hact : s.is_active = true) :
    ((s.run_should_spawn N).1).count true = N / k ∧
    ∀ j, j < N →
      ((s.run_should_spawn N).1).getD j false = decide (k ∣ (j + 1)) := by
  have hform := run_should_spawn_closed_form (k : ℤ) N s hact hint
  rw [hctr] at hform
  have hpred : ∀ j : ℕ,
      (decide (((0 : ℤ) + (j : ℤ) + 1) % (k : ℤ) = 0)) =
        decide (k ∣ (j + 1)) := by
    intro j
    apply decide_eq_decide.mpr
    have hcast : (0 : ℤ) + (j : ℤ) + 1 = ((j + 1 : ℕ) : ℤ) := by push_cast; ring
    rw [hcast, EuclideanDomain.mod_eq_zero]
    exact Int.natCast_dvd_natCast
  have hform2 : (s.run_should_spawn N).1 =
      (List.range N).map (fun j : ℕ => decide (k ∣ (j + 1))) := by
    rw [hform]
    exact List.map_congr_left (fun a _ => hpred a)
  constructor
  · rw [hform2, count_true_map_decide, countP_dvd_range]
  · intro j hj
    rw [hform2]
    have hlen : j < ((List.range N).map
        (fun j : ℕ => decide (k ∣ (j + 1)))).length := by simpa using hj
    rw [List.getD_eq_getElem _ _ hlen]
    simp

/-- Witness for spawner_periodicity with k = 2 over N = 5 calls. -/
theorem spawner_periodicity_witness :
    (1 ≤ 2 ∧ (ParticleSpawner.init 0 0 3 2).spawn_interval = ((2 : ℕ) : ℤ) ∧
      (ParticleSpawner.init 0 0 3 2).step_counter = 0 ∧
      (ParticleSpawner.init 0 0 3 2).is_active = true) ∧
    (((ParticleSpawner.init 0 0 3 2).run_should_spawn 5).1).count true = 5 / 2 ∧
    ∀ j, j < 5 →
      (((ParticleSpawner.init 0 0 3 2).run_should_spawn 5).1).getD j false =
        decide (2 ∣ (j + 1)) :=
  ⟨⟨by decide, by decide, by decide, by decide⟩,
    (spawner_periodicity (ParticleSpawner.init 0 0 3 2) 2 5 (by decide)
      (by decide) (by decide) (by decide)).1,
    (spawner_periodicity (ParticleSpawner.init 0 0 3 2) 2 5 (by decide)
      (by decide) (by decide) (by decide)).2⟩

/-- Helper: every spawner operation preserves lower bounds of 1 on
spawn_count and spawn_interval. -/
theorem applyOp_preserves_clamp (s : ParticleSpawner) (op : SpawnerOp)
    (h : 1 ≤ s.spawn_count ∧ 1 ≤ s.spawn_interval) :
    1 ≤ (s.applyOp op).spawn_count ∧ 1 ≤ (s.applyOp op).spawn_interval := by
  rcases op with _ | n | n | b | cs | _ | _ | cfg
  · exact h
  · exact ⟨le_max_left 1 n, h.2⟩
  · exact ⟨h.1, le_max_left 1 n⟩
  · exact h
  · rcases cs with _ | cs <;>
      simp [ParticleSpawner.applyOp, ParticleSpawner.should_spawn] <;>
      split <;> simp [h.1, h.2]
  · exact h
  · simp only [ParticleSpawner.applyOp, ParticleSpawner.force_spawn]
    split <;> simp [h.1, h.2]
  · simp only [ParticleSpawner.applyOp, ParticleSpawner.update_from_config]
    rcases cfg with ⟨cx, cy, cc, ci⟩
    rcases cc with _ | c <;> rcases ci with _ | i <;>
      rcases cx with _ | x <;> rcases cy with _ | y <;>
      simp [ParticleSpawner.set_spawn_count,
        ParticleSpawner.set_spawn_interval, h.1, h.2, le_max_left]

/-- C6 (amended): when the constructor is given spawn_count and
spawn_interval at least 1 (the source defaults are 1 and 5), every
subsequent sequence of mutator calls keeps both at least 1, the setters
clamping inputs below 1 up to 1; the constructor itself, however, stores
its arguments unclamped. -/
theorem spawner_clamp_invariant (x y : ℚ) (c0 i0 : ℤ)
    (hc : 1 ≤ c0) (hi : 1 ≤ i0) (ops : List SpawnerOp) :
    1 ≤ ((ParticleSpawner.init x y c0 i0).applyOps ops).spawn_count ∧
    1 ≤ ((ParticleSpawner.init x y c0 i0).applyOps ops).spawn_interval := by
  have : ∀ (l : List SpawnerOp) (s : ParticleSpawner),
      1 ≤ s.spawn_count → 1 ≤ s.spawn_interval →
      1 ≤ (s.applyOps l).spawn_count ∧ 1 ≤ (s.applyOps l).spawn_interval := by
    intro l
    induction l with
    | nil => intro s h1 h2; exact ⟨h1, h2⟩
    | cons op rest ih =>
      intro s h1 h2
      have hop := applyOp_preserves_clamp s op ⟨h1, h2⟩
      exact ih (s.applyOp op) hop.1 hop.2
  exact this ops (ParticleSpawner.init x y c0 i0) hc hi

/-- Witness for spawner_clamp_invariant: after constructing with the
defaults and then setting the count to -3, the count is clamped to 1. -/
theorem spawner_clamp_invariant_witness :
    (1 ≤ (1 : ℤ) ∧ 1 ≤ (5 : ℤ)) ∧
    1 ≤ ((ParticleSpawner.init 0 0 1 5).applyOps
      [SpawnerOp.setSpawnCount (-3)]).spawn_count ∧
    1 ≤ ((ParticleSpawner.init 0 0 1 5).applyOps
      [SpawnerOp.setSpawnCount (-3)]).spawn_interval :=
  ⟨⟨by decide, by decide⟩,
    (spawner_clamp_invariant 0 0 1 5 (by decide) (by decide)
      [SpawnerOp.setSpawnCount (-3)]).1,
    (spawner_clamp_invariant 0 0 1 5 (by decide) (by decide)
      [SpawnerOp.setSpawnCount (-3)]).2⟩

/-- C6 counterexample: the constructor stores a spawn_count of 0 as-is, so
the claimed always-clamped invariant fails for constructor arguments. -/
theorem spawner_constructor_no_clamp :
    (ParticleSpawner.init 0 0 0 0).spawn_count = 0 ∧
    (ParticleSpawner.init 0 0 0 0).spawn_interval = 0 ∧
    ¬ (1 ≤ (ParticleSpawner.init 0 0 0 0).spawn_count ∧
       1 ≤ (ParticleSpawner.init 0 0 0 0).spawn_interval) := by
  refine ⟨rfl, rfl, ?_⟩
  decide

/-- C10: a no-argument should_spawn call on an inactive spawner returns
false and leaves the state, in particular the step counter, unchanged. -/
theorem inactive_should_spawn_noop (s : ParticleSpawner)
    (h : s.is_active = false) : s.should_spawn none = (false, s) := by
  simp [ParticleSpawner.should_spawn, h]

/-- Witness for inactive_should_spawn_noop on a concrete deactivated
spawner. -/
theorem inactive_should_spawn_noop_witness :
    ((ParticleSpawner.init 0 0 3 5).set_active false).is_active = false ∧
    ((ParticleSpawner.init 0 0 3 5).set_active false).should_spawn none =
      (false, (ParticleSpawner.init 0 0 3 5).set_active false) :=
  ⟨by decide,
    inactive_should_spawn_noop ((ParticleSpawner.init 0 0 3 5).set_active false)
      (by decide)⟩

/-- Helper: in a pairwise-related list, every element is the last element or
relates to it. -/
theorem pairwise_rel_getLast? {α : Type} {R : α → α → Prop} :
    ∀ {l : List α} {d : α}, l.Pairwise R → l.getLast? = some d →
      ∀ e ∈ l, e = d ∨ R e d := by
  intro l
  induction l with
  | nil => intro d _ hd; simp at hd
  | cons a t ih =>
    intro d hp hd e he
    cases t with
    | nil =>
      simp at hd he
      subst hd; subst he; exact Or.inl rfl
    | cons b u =>
      rw [List.getLast?_cons_cons] at hd
      rw [List.pairwise_cons] at hp
      rcases List.mem_cons.mp he with rfl | he2
      · exact Or.inr (hp.1 d (List.mem_of_mem_getLast? hd))
      · exact ih hp.2 hd e he2

/-- C2 counterexample: for a manager whose dividers were loaded in the
order x = 20 (probability 1/2), x = 10 (probability 1/5), the query at
x = 25 returns 1/5, the probability of the last divider in list order,
while the divider with the greatest x left of 25 is the one at x = 20 with
probability 1/2. -/
theorem region_probability_not_greatest_x :
    unsortedManager.get_region_probability 25 = 1/5 ∧
    (∃ d ∈ unsortedManager.dividers, d.x = 20 ∧ d.probability = 1/2 ∧
      ∀ e ∈ unsortedManager.dividers, e.x < 25 → e.x ≤ 20) ∧
    (1/5 : ℚ) ≠ 1/2 := by
  have hdiv : unsortedManager.dividers =
      [Divider.init "B" 20 (1/2) "#FF5722",
       Divider.init "A" 10 (1/5) "#FF5722"] := by
    norm_num [unsortedManager, DividerManager.init,
      DividerManager.load_from_config, Divider.init]
  refine ⟨?_, ?_, by norm_num⟩
  · norm_num [DividerManager.get_region_probability, hdiv, Divider.init,
      Divider.is_point_in_region, Divider.get_catch_probability, List.filter]
  · refine ⟨Divider.init "B" 20 (1/2) "#FF5722", ?_, rfl, rfl, ?_⟩
    · rw [hdiv]; exact List.mem_cons_self _ _
    · intro e he
      rw [hdiv] at he
      rcases List.mem_cons.mp he with rfl | he2
      · intro _; norm_num [Divider.init]
      · rcases List.mem_cons.mp he2 with rfl | he3
        · intro _; norm_num [Divider.init]
        · simp at he3

/-- C2 (amended): get_region_probability returns the probability of the
last applicable divider in list order (0 when none applies); when the
divider list is sorted ascending by x, as add_divider maintains, that
divider has the greatest x among the dividers strictly left of the query
point, and the two-divider example of the specification evaluates to 0, 0.2 and
0.5. -/
theorem region_probability_sorted :
    (∀ (dm : DividerManager) (x : ℚ),
      List.Sorted (fun a b : Divider => a.x ≤ b.x) dm.dividers →
      (dm.get_region_probability x = 0 ∧ ∀ d ∈ dm.dividers, ¬ d.x < x) ∨
      (∃ d ∈ dm.dividers, d.x < x ∧
        dm.get_region_probability x = d.probability ∧
        ∀ e ∈ dm.dividers, e.x < x → e.x ≤ d.x)) ∧
    exampleManager.get_region_probability 5 = 0 ∧
    exampleManager.get_region_probability 15 = 1/5 ∧
    exampleManager.get_region_probability 25 = 1/2 := by
  have hex : exampleManager.dividers =
      [Divider.init "A" 10 (1/5) "#FF5722",
       Divider.init "B" 20 (1/2) "#FF5722"] := by
    norm_num [exampleManager, DividerManager.init,
      DividerManager.load_from_config, DividerManager.add_divider,
      DividerManager.get_divider_by_name, DividerManager.validate_position,
      Divider.init, List.mergeSort, List.merge]
    rw [if_neg (by decide)]
  constructor
  · intro dm x hs
    rcases happ : (dm.dividers.filter
        (fun d => d.is_point_in_region x)).getLast? with _ | d
    · left
      have hempty : dm.dividers.filter (fun d => d.is_point_in_region x) = [] :=
        List.getLast?_eq_none_iff.mp happ
      constructor
      · simp [DividerManager.get_region_probability, happ]
      · intro d hd hdx
        have : d ∈ dm.dividers.filter (fun d => d.is_point_in_region x) :=
          List.mem_filter.mpr ⟨hd, by simp [Divider.is_point_in_region, hdx]⟩
        rw [hempty] at this
        simp at this
    · right
      have hdmem : d ∈ dm.dividers.filter (fun d => d.is_point_in_region x) :=
        List.mem_of_mem_getLast? happ
      have hdall : d ∈ dm.dividers := List.mem_of_mem_filter hdmem
      have hdx : d.x < x := by
        have := List.of_mem_filter hdmem
        simpa [Divider.is_point_in_region] using this
      refine ⟨d, hdall, hdx, ?_, ?_⟩
      · simp [DividerManager.get_region_probability, happ,
          Divider.get_catch_probability]
      · intro e he hex2
        have hemem : e ∈ dm.dividers.filter (fun d => d.is_point_in_region x) :=
          List.mem_filter.mpr ⟨he, by simp [Divider.is_point_in_region, hex2]⟩
        have hpair := List.Pairwise.filter
          (fun d : Divider => d.is_point_in_region x) hs
        rcases pairwise_rel_getLast? hpair happ e hemem with rfl | hle
        · exact le_refl _
        · exact hle
  · refine ⟨?_, ?_, ?_⟩ <;>
      norm_num [DividerManager.get_region_probability, hex, Divider.init,
        Divider.is_point_in_region, Divider.get_catch_probability,
        List.filter]

/-- Witness for region_probability_sorted at the example manager and query
x = 25. -/
theorem region_probability_sorted_witness :
    List.Sorted (fun a b : Divider => a.x ≤ b.x) exampleManager.dividers ∧
    ((exampleManager.get_region_probability 25 = 0 ∧
        ∀ d ∈ exampleManager.dividers, ¬ d.x < 25) ∨
      (∃ d ∈ exampleManager.dividers, d.x < 25 ∧
        exampleManager.get_region_probability 25 = d.probability ∧
        ∀ e ∈ exampleManager.dividers, e.x < 25 → e.x ≤ d.x)) := by
  have hex : exampleManager.dividers =
      [Divider.init "A" 10 (1/5) "#FF5722",
       Divider.init "B" 20 (1/2) "#FF5722"] := by
    norm_num [exampleManager, DividerManager.init,
      DividerManager.load_from_config, DividerManager.add_divider,
      DividerManager.get_divider_by_name, DividerManager.validate_position,
      Divider.init, List.mergeSort, List.merge]
    rw [if_neg (by decide)]
  have hsorted : List.Sorted (fun a b : Divider => a.x ≤ b.x)
      exampleManager.dividers := by
    rw [hex]
    refine List.sorted_cons.mpr ⟨?_, List.sorted_singleton _⟩
    intro b hb
    rcases List.mem_singleton.mp hb with rfl
    norm_num [Divider.init]
  exact ⟨hsorted, (region_probability_sorted.1 exampleManager 25 hsorted)⟩

/-- C7 counterexample: the Divider constructor stores an out-of-range
probability unchanged, so the claimed clamp-on-every-set invariant fails
for construction (and hence for add_divider, which builds the divider with
the constructor). -/
theorem divider_constructor_no_clamp :
    (Divider.init "leaky" 0 2 "#FF5722").probability = 2 ∧
    ¬ ((Divider.init "leaky" 0 2 "#FF5722").probability ≤ 1) := by
  constructor
  · rfl
  · norm_num [Divider.init]

/-- C7 (amended): set_probability clamps its input into the closed unit
interval, and update_from_dict clamps whenever a probability entry is
present (it routes through set_probability); the constructor, in contrast,
stores the supplied probability unchanged, so the interval invariant holds
only for values stored through the two clamping paths. -/
theorem divider_probability_clamp :
    (∀ (d : Divider) (p : ℚ),
      0 ≤ (d.set_probability p).probability ∧
      (d.set_probability p).probability ≤ 1) ∧
    (∀ (d : Divider) (cfg : DividerConfig) (p : ℚ),
      cfg.probability = some p →
      0 ≤ (d.update_from_dict cfg).probability ∧
      (d.update_from_dict cfg).probability ≤ 1) ∧
    (∀ (name : String) (x p : ℚ) (color : String),
      (Divider.init name x p color).probability = p) := by
  refine ⟨?_, ?_, fun _ _ _ _ => rfl⟩
  · intro d p
    refine ⟨le_max_left _ _, max_le (by norm_num) (min_le_left _ _)⟩
  · intro d cfg p hp
    rcases cfg with ⟨cn, cx, cp, cc⟩
    simp only at hp
    subst hp
    rcases cx with _ | xv <;> rcases cc with _ | cv <;>
      simp only [Divider.update_from_dict, Divider.set_probability] <;>
      exact ⟨le_max_left _ _, max_le (by norm_num) (min_le_left _ _)⟩

/-- Witness for divider_probability_clamp at probability input 7. -/
theorem divider_probability_clamp_witness :
    (0 ≤ ((Divider.init "d" 0 0 "c").set_probability 7).probability ∧
      ((Divider.init "d" 0 0 "c").set_probability 7).probability ≤ 1) ∧
    ({ name := none, x := none, probability := some 7, color := none } :
        DividerConfig).probability = some 7 ∧
    (0 ≤ ((Divider.init "d" 0 0 "c").update_from_dict
        { name := none, x := none, probability := some 7,
          color := none }).probability ∧
      ((Divider.init "d" 0 0 "c").update_from_dict
        { name := none, x := none, probability := some 7,
          color := none }).probability ≤ 1) ∧
    (Divider.init "d" 0 0 "c").probability = 0 :=
  ⟨divider_probability_clamp.1 (Divider.init "d" 0 0 "c") 7, rfl,
    divider_probability_clamp.2.1 (Divider.init "d" 0 0 "c") _ 7 rfl,
    divider_probability_clamp.2.2 "d" 0 0 "c"⟩

/-- C8: add_divider fails without mutation when the name already exists or
the position is outside the ellipse x-range; otherwise it succeeds, the new
divider (with the supplied fields) is in the collection, the collection is
a permutation of the old one plus the new divider, and it is sorted
ascending by x. -/
theorem add_divider_spec (dm : DividerManager) (name : String)
    (position probability : ℚ) (color : String) :
    ((dm.get_divider_by_name name).isSome = true →
      dm.add_divider name position probability color = (false, dm)) ∧
    (dm.validate_position position = false →
      dm.add_divider name position probability color = (false, dm)) ∧
    ((dm.get_divider_by_name name).isSome = false →
      dm.validate_position position = true →
      (dm.add_divider name position probability color).1 = true ∧
      Divider.init name position probability color ∈
        (dm.add_divider name position probability color).2.dividers ∧
      ((dm.add_divider name position probability color).2.dividers).Perm
        (dm.dividers ++ [Divider.init name position probability color]) ∧
      List.Sorted (fun a b : Divider => a.x ≤ b.x)
        (dm.add_divider name position probability color).2.dividers) := by
  refine ⟨?_, ?_, ?_⟩
  · intro h
    simp [DividerManager.add_divider, h]
  · intro h
    by_cases h1 : (dm.get_divider_by_name name).isSome = true
    · simp [DividerManager.add_divider, h1]
    · simp [DividerManager.add_divider, h1, h]
  · intro h1 h2
    have hcond : (dm.add_divider name position probability color) =
        (true, { dm with dividers :=
          ((dm.dividers ++
            [Divider.init name position probability color]).mergeSort
              (fun a b => decide (a.x ≤ b.x))) }) := by
      unfold DividerManager.add_divider
      rw [if_neg (by simp [h1]), if_neg (by simp [h2])]
    rw [hcond]
    refine ⟨rfl, ?_, ?_, ?_⟩
    · exact List.mem_mergeSort.mpr (by simp)
    · exact List.mergeSort_perm _ _
    · have hs : List.Pairwise
          (fun a b : Divider => (decide (a.x ≤ b.x)) = true)
          ((dm.dividers ++
            [Divider.init name position probability color]).mergeSort
              (fun a b => decide (a.x ≤ b.x))) :=
        @List.sorted_mergeSort Divider (fun a b => decide (a.x ≤ b.x))
          (fun a b c hab hbc =>
            decide_eq_true
              (le_trans (of_decide_eq_true hab) (of_decide_eq_true hbc)))
          (fun a b => by rcases le_total a.x b.x with h | h <;> simp [h])
          (dm.dividers ++ [Divider.init name position probability color])
      exact hs.imp (fun h => of_decide_eq_true h)

/-- Witness for add_divider_spec: adding a fresh divider at x = 10 to an
empty manager succeeds. -/
theorem add_divider_spec_witness :
    ((DividerManager.init [] (150, 100, 150, 50)).get_divider_by_name
        "A").isSome = false ∧
    (DividerManager.init [] (150, 100, 150, 50)).validate_position 10 = true ∧
    (((DividerManager.init [] (150, 100, 150, 50)).add_divider
        "A" 10 1 "#FF5722").1 = true ∧
      Divider.init "A" 10 1 "#FF5722" ∈
        ((DividerManager.init [] (150, 100, 150, 50)).add_divider
          "A" 10 1 "#FF5722").2.dividers ∧
      (((DividerManager.init [] (150, 100, 150, 50)).add_divider
          "A" 10 1 "#FF5722").2.dividers).Perm
        ((DividerManager.init [] (150, 100, 150, 50)).dividers ++
          [Divider.init "A" 10 1 "#FF5722"]) ∧
      List.Sorted (fun a b : Divider => a.x ≤ b.x)
        ((DividerManager.init [] (150, 100, 150, 50)).add_divider
          "A" 10 1 "#FF5722").2.dividers) :=
  ⟨by rfl,
    by
      norm_num [DividerManager.init, DividerManager.load_from_config,
        DividerManager.validate_position],
    (add_divider_spec (DividerManager.init [] (150, 100, 150, 50))
      "A" 10 1 "#FF5722").2.2 (by rfl)
      (by
        norm_num [DividerManager.init, DividerManager.load_from_config,
          DividerManager.validate_position])⟩

/-- Helper: Python int() of an integer-valued rational is that integer. -/
theorem pyInt_intCast (n : ℤ) : pyInt (n : ℚ) = n := by
  unfold pyInt
  split <;> simp

/-- Helper: Python int() of a nonnegative rational is its floor. -/
theorem pyInt_of_nonneg {q : ℚ} (h : 0 ≤ q) : pyInt q = ⌊q⌋ := by
  unfold pyInt
  rw [if_pos h]

/-- C9 (amended): after grid creation the width is the configured
resolution and the height is the truncation (Python int(), i.e. floor for
these nonnegative values — not rounding) of resolution times the ratio of
the padded spans; with the spec example, center (150, 100), radii
(150, 50), resolution 100, the shape is height 33 by width 100. -/
theorem create_mask_grid_shape (resolution : ℤ) (padding : ℚ) (cnt : Bool)
    (cx cy rx ry : ℚ) (hres : 0 ≤ resolution)
    (hx : 0 < rx + padding) (hy : 0 ≤ ry + padding) :
    (MaskSystem.init (resolution : ℚ) padding cnt cx cy rx ry).grid_size_x =
      resolution ∧
    (MaskSystem.init (resolution : ℚ) padding cnt cx cy rx ry).grid_size_y =
      ⌊(resolution : ℚ) * (2 * (ry + padding)) / (2 * (rx + padding))⌋ ∧
    (MaskSystem.init 100 0 true 150 100 150 50).grid_size_x = 100 ∧
    (MaskSystem.init 100 0 true 150 100 150 50).grid_size_y = 33 := by
  refine ⟨?_, ?_, ?_, ?_⟩
  · simp [MaskSystem.init, MaskSystem.create_mask_grid, pyInt_intCast]
  · have harg : (resolution : ℚ) *
        ((cy + ry + padding) - (cy - ry - padding)) /
        ((cx + rx + padding) - (cx - rx - padding)) =
        (resolution : ℚ) * (2 * (ry + padding)) / (2 * (rx + padding)) := by
      ring_nf
    have hnum : (0 : ℚ) ≤ (resolution : ℚ) * (2 * (ry + padding)) := by
      have : (0 : ℚ) ≤ (resolution : ℚ) := by exact_mod_cast hres
      nlinarith
    have hden : (0 : ℚ) < 2 * (rx + padding) := by linarith
    have hq : (0 : ℚ) ≤
        (resolution : ℚ) * (2 * (ry + padding)) / (2 * (rx + padding)) :=
      div_nonneg hnum hden.le
    simp only [MaskSystem.init, MaskSystem.create_mask_grid]
    rw [harg, pyInt_of_nonneg hq]
  · norm_num [MaskSystem.init, MaskSystem.create_mask_grid, pyInt]
  · norm_num [MaskSystem.init, MaskSystem.create_mask_grid, pyInt]

/-- Witness for create_mask_grid_shape at the spec example parameters. -/
theorem create_mask_grid_shape_witness :
    ((0 : ℤ) ≤ 100 ∧ (0 : ℚ) < 150 + 0 ∧ (0 : ℚ) ≤ 50 + 0) ∧
    (MaskSystem.init ((100 : ℤ) : ℚ) 0 true 150 100 150 50).grid_size_x =
      100 ∧
    (MaskSystem.init ((100 : ℤ) : ℚ) 0 true 150 100 150 50).grid_size_y =
      ⌊((100 : ℤ) : ℚ) * (2 * ((50 : ℚ) + 0)) / (2 * ((150 : ℚ) + 0))⌋ :=
  ⟨⟨by norm_num, by norm_num, by norm_num⟩,
    (create_mask_grid_shape 100 0 true 150 100 150 50 (by norm_num)
      (by norm_num) (by norm_num)).1,
    (create_mask_grid_shape 100 0 true 150 100 150 50 (by norm_num)
      (by norm_num) (by norm_num)).2.1⟩

/-- C9 counterexample: with center (150, 100), radii (150, 100), resolution
100, the code computes int(100 * 200 / 300) = 66 while the claimed rounding
formula gives round(200/3) = 67. -/
theorem create_mask_grid_not_round :
    (MaskSystem.init 100 0 true 150 100 150 100).grid_size_y = 66 ∧
    round ((100 : ℚ) *
      ((MaskSystem.init 100 0 true 150 100 150 100).y_max -
        (MaskSystem.init 100 0 true 150 100 150 100).y_min) /
      ((MaskSystem.init 100 0 true 150 100 150 100).x_max -
        (MaskSystem.init 100 0 true 150 100 150 100).x_min)) = 67 ∧
    (66 : ℤ) ≠ 67 := by
  refine ⟨?_, ?_, by decide⟩
  · norm_num [MaskSystem.init, MaskSystem.create_mask_grid, pyInt]
  · have hb : (MaskSystem.init 100 0 true 150 100 150 100).y_max = 200 ∧
        (MaskSystem.init 100 0 true 150 100 150 100).y_min = 0 ∧
        (MaskSystem.init 100 0 true 150 100 150 100).x_max = 300 ∧
        (MaskSystem.init 100 0 true 150 100 150 100).x_min = 0 := by
      refine ⟨?_, ?_, ?_, ?_⟩ <;>
        norm_num [MaskSystem.init, MaskSystem.create_mask_grid]
    rw [hb.1, hb.2.1, hb.2.2.1, hb.2.2.2, round_eq]
    norm_num

/-- Helper: one axis of the round trip.  Truncating the affine image of a
point of the interval from lo to hi into g cells, clamping into the index
range, and mapping back yields a value within one cell width of the
original point. -/
theorem grid_axis_bound (lo hi : ℚ) (g : ℤ) (t : ℚ)
    (hg : 1 ≤ g) (hlo : lo ≤ t) (hhi : t ≤ hi) (hlt : lo < hi) :
    |lo + ((max 0 (min (g - 1)
        (pyInt ((t - lo) / (hi - lo) * (g : ℚ)))) : ℤ) : ℚ) / (g : ℚ) *
      (hi - lo) - t| ≤ (hi - lo) / (g : ℚ) := by
  set W : ℚ := hi - lo with hWdef
  have hW : 0 < W := sub_pos.mpr hlt
  have hgQ : (1 : ℚ) ≤ (g : ℚ) := by exact_mod_cast hg
  have hgpos : (0 : ℚ) < (g : ℚ) := lt_of_lt_of_le zero_lt_one hgQ
  set q : ℚ := (t - lo) / W * (g : ℚ) with hqdef
  have hq0 : 0 ≤ q := mul_nonneg (div_nonneg (sub_nonneg.mpr hlo) hW.le)
    hgpos.le
  have hqg : q ≤ (g : ℚ) := by
    have h1 : (t - lo) / W ≤ 1 := (div_le_one hW).mpr (by linarith)
    calc q = (t - lo) / W * (g : ℚ) := hqdef
    _ ≤ 1 * (g : ℚ) := mul_le_mul_of_nonneg_right h1 hgpos.le
    _ = (g : ℚ) := one_mul _
  have hfloor : pyInt q = ⌊q⌋ := pyInt_of_nonneg hq0
  have hfl0 : 0 ≤ ⌊q⌋ := Int.floor_nonneg.mpr hq0
  set j : ℤ := max 0 (min (g - 1) (pyInt q)) with hjdef
  have hjmin : j = min (g - 1) ⌊q⌋ := by
    rw [hjdef, hfloor]
    rcases le_total ⌊q⌋ (g - 1) with h | h
    · rw [min_eq_right h, max_eq_right hfl0]
    · rw [min_eq_left h, max_eq_right (by omega)]
  have hjle : (j : ℚ) ≤ q := by
    rw [hjmin]
    calc ((min (g - 1) ⌊q⌋ : ℤ) : ℚ) ≤ ((⌊q⌋ : ℤ) : ℚ) := by
          exact_mod_cast min_le_right _ _
    _ ≤ q := Int.floor_le q
  have hjge : q - 1 ≤ (j : ℚ) := by
    rw [hjmin]
    rcases le_or_lt ⌊q⌋ (g - 1) with h | h
    · rw [min_eq_right h]
      have := Int.lt_floor_add_one q
      linarith
    · rw [min_eq_left h.le]
      have hgle : (g : ℚ) ≤ q := by
        have hzle : (g : ℤ) ≤ ⌊q⌋ := by omega
        calc (g : ℚ) ≤ ((⌊q⌋ : ℤ) : ℚ) := by exact_mod_cast hzle
        _ ≤ q := Int.floor_le q
      push_cast
      linarith
  have ht : t - lo = q / (g : ℚ) * W := by
    rw [hqdef]
    field_simp
    ring
  have hval : lo + ((j : ℤ) : ℚ) / (g : ℚ) * W - t =
      (((j : ℤ) : ℚ) - q) * W / (g : ℚ) := by
    have : lo + ((j : ℤ) : ℚ) / (g : ℚ) * W - t =
        ((j : ℤ) : ℚ) / (g : ℚ) * W - (t - lo) := by ring
    rw [this, ht]
    ring
  rw [hval, abs_div, abs_mul, abs_of_pos hW, abs_of_pos hgpos,
    abs_of_nonpos (by linarith : ((j : ℤ) : ℚ) - q ≤ 0)]
  rw [div_le_div_iff_of_pos_right hgpos]
  nlinarith

/-- C3: for any point of the bounding box of a valid grid (at least one
cell each way, nondegenerate box), converting to grid indices and back
yields a point within one cell width of the original in x and one cell
height in y. -/
theorem coord_grid_round_trip (m : MaskSystem) (x y : ℚ)
    (hgx : 1 ≤ m.grid_size_x) (hgy : 1 ≤ m.grid_size_y)
    (hx1 : m.x_min ≤ x) (hx2 : x ≤ m.x_max)
    (hy1 : m.y_min ≤ y) (hy2 : y ≤ m.y_max)
    (hxlt : m.x_min < m.x_max) (hylt : m.y_min < m.y_max) :
    |(m.grid_to_coord (m.coord_to_grid x y).1 (m.coord_to_grid x y).2).1 - x|
      ≤ (m.x_max - m.x_min) / (m.grid_size_x : ℚ) ∧
    |(m.grid_to_coord (m.coord_to_grid x y).1 (m.coord_to_grid x y).2).2 - y|
      ≤ (m.y_max - m.y_min) / (m.grid_size_y : ℚ) := by
  have hcg : m.coord_to_grid x y =
      (max 0 (min (m.grid_size_y - 1)
         (pyInt ((y - m.y_min) / (m.y_max - m.y_min) * (m.grid_size_y : ℚ)))),
       max 0 (min (m.grid_size_x - 1)
         (pyInt ((x - m.x_min) / (m.x_max - m.x_min) * (m.grid_size_x : ℚ))))) := by
    unfold MaskSystem.coord_to_grid
    rw [if_neg]
    push_neg
    exact ⟨hx1, hx2, hy1, hy2⟩
  rw [hcg]
  unfold MaskSystem.grid_to_coord
  exact ⟨grid_axis_bound m.x_min m.x_max m.grid_size_x x hgx hx1 hx2 hxlt,
    grid_axis_bound m.y_min m.y_max m.grid_size_y y hgy hy1 hy2 hylt⟩

/-- Witness for coord_grid_round_trip at the default mask and the point
(10, 60). -/
theorem coord_grid_round_trip_witness :
    (1 ≤ exampleMask.grid_size_x ∧ 1 ≤ exampleMask.grid_size_y ∧
      exampleMask.x_min ≤ 10 ∧ (10 : ℚ) ≤ exampleMask.x_max ∧
      exampleMask.y_min ≤ 60 ∧ (60 : ℚ) ≤ exampleMask.y_max ∧
      exampleMask.x_min < exampleMask.x_max ∧
      exampleMask.y_min < exampleMask.y_max) ∧
    |(exampleMask.grid_to_coord (exampleMask.coord_to_grid 10 60).1
        (exampleMask.coord_to_grid 10 60).2).1 - 10|
      ≤ (exampleMask.x_max - exampleMask.x_min) /
        (exampleMask.grid_size_x : ℚ) ∧
    |(exampleMask.grid_to_coord (exampleMask.coord_to_grid 10 60).1
        (exampleMask.coord_to_grid 10 60).2).2 - 60|
      ≤ (exampleMask.y_max - exampleMask.y_min) /
        (exampleMask.grid_size_y : ℚ) :=
  ⟨⟨by norm_num [exampleMask, MaskSystem.init, MaskSystem.create_mask_grid, pyInt],
    by norm_num [exampleMask, MaskSystem.init, MaskSystem.create_mask_grid, pyInt],
    by norm_num [exampleMask, MaskSystem.init, MaskSystem.create_mask_grid],
    by norm_num [exampleMask, MaskSystem.init, MaskSystem.create_mask_grid],
    by norm_num [exampleMask, MaskSystem.init, MaskSystem.create_mask_grid],
    by norm_num [exampleMask, MaskSystem.init, MaskSystem.create_mask_grid],
    by norm_num [exampleMask, MaskSystem.init, MaskSystem.create_mask_grid],
    by norm_num [exampleMask, MaskSystem.init, MaskSystem.create_mask_grid]⟩,
    coord_grid_round_trip exampleMask 10 60
      (by norm_num [exampleMask, MaskSystem.init, MaskSystem.create_mask_grid, pyInt])
      (by norm_num [exampleMask, MaskSystem.init, MaskSystem.create_mask_grid, pyInt])
      (by norm_num [exampleMask, MaskSystem.init, MaskSystem.create_mask_grid])
      (by norm_num [exampleMask, MaskSystem.init, MaskSystem.create_mask_grid])
      (by norm_num [exampleMask, MaskSystem.init, MaskSystem.create_mask_grid])
      (by norm_num [exampleMask, MaskSystem.init, MaskSystem.create_mask_grid])
      (by norm_num [exampleMask, MaskSystem.init, MaskSystem.create_mask_grid])
      (by norm_num [exampleMask, MaskSystem.init, MaskSystem.create_mask_grid])⟩

/-- Helper: squared speed after removing (1 + b) times the component along
a unit vector. -/
theorem reflected_speed_sq (ux uy vx vy b : ℝ) (hunit : ux ^ 2 + uy ^ 2 = 1) :
    (vx - (1 + b) * (vx * ux + vy * uy) * ux) ^ 2 +
      (vy - (1 + b) * (vx * ux + vy * uy) * uy) ^ 2 =
      vx ^ 2 + vy ^ 2 - (1 - b ^ 2) * (vx * ux + vy * uy) ^ 2 := by
  linear_combination (vx * ux + vy * uy) ^ 2 * (1 + b) ^ 2 * hunit

/-- C4: for bounce between 0 and 1, reflect_at_boundary never increases the
speed, and whenever the velocity correction is actually applied (the
particle is on or outside the ellipse and the velocity component along the
outward normal direction is positive) the speed is preserved exactly when
bounce equals 1. -/
theorem reflect_energy (x y vx vy cx cy rx ry bounce : ℝ)
    (hb0 : 0 ≤ bounce) (hb1 : bounce ≤ 1) :
    Real.sqrt ((reflect_at_boundary x y vx vy cx cy rx ry bounce).2.2.1 ^ 2 +
        (reflect_at_boundary x y vx vy cx cy rx ry bounce).2.2.2 ^ 2) ≤
      Real.sqrt (vx ^ 2 + vy ^ 2) ∧
    (1 ≤ ((x - cx) / rx) ^ 2 + ((y - cy) / ry) ^ 2 →
      0 < vx * (2 * (x - cx) / rx ^ 2) + vy * (2 * (y - cy) / ry ^ 2) →
      (Real.sqrt ((reflect_at_boundary x y vx vy cx cy rx ry bounce).2.2.1 ^ 2 +
          (reflect_at_boundary x y vx vy cx cy rx ry bounce).2.2.2 ^ 2) =
        Real.sqrt (vx ^ 2 + vy ^ 2) ↔ bounce = 1)) := by
  simp only [reflect_at_boundary]
  set A : ℝ := 2 * (x - cx) / rx ^ 2 with hA
  set B : ℝ := 2 * (y - cy) / ry ^ 2 with hB
  set S : ℝ := Real.sqrt (A ^ 2 + B ^ 2) with hS
  clear_value A B S
  split_ifs with hd hn hdot
  · -- correction branch
    have hsum : (0 : ℝ) < A ^ 2 + B ^ 2 := Real.sqrt_pos.mp (hS ▸ hn)
    have hSsq : S ^ 2 = A ^ 2 + B ^ 2 := by
      rw [hS]
      exact Real.sq_sqrt hsum.le
    have hunit : (A / S) ^ 2 + (B / S) ^ 2 = 1 := by
      have hSne : S ≠ 0 := ne_of_gt hn
      field_simp
      linarith [hSsq]
    have hsq := reflected_speed_sq (A / S) (B / S) vx vy bounce hunit
    have h1b : 0 ≤ 1 - bounce ^ 2 := by nlinarith
    have hD2 : 0 ≤ (vx * (A / S) + vy * (B / S)) ^ 2 :=
      sq_nonneg _
    constructor
    · apply Real.sqrt_le_sqrt
      rw [hsq]
      have := mul_nonneg h1b hD2
      linarith
    · intro hd2 hdot2
      rw [Real.sqrt_inj (add_nonneg (sq_nonneg _) (sq_nonneg _))
        (add_nonneg (sq_nonneg _) (sq_nonneg _)), hsq]
      have hDpos : 0 < (vx * (A / S) + vy * (B / S)) ^ 2 := pow_pos hdot 2
      constructor
      · intro heq
        have hzero : (1 - bounce ^ 2) * (vx * (A / S) + vy * (B / S)) ^ 2 = 0 := by
          linarith
        have honeb : 1 - bounce ^ 2 = 0 := by
          rcases mul_eq_zero.mp hzero with h | h
          · exact h
          · exact absurd h (ne_of_gt hDpos)
        have hfac : (1 - bounce) * (1 + bounce) = 0 := by
          linear_combination honeb
        rcases mul_eq_zero.mp hfac with h | h
        · linarith
        · linarith
      · intro hb
        rw [hb]
        ring
  · -- on or outside, normal positive, but velocity not outward
    refine ⟨le_refl _, ?_⟩
    intro hd2 hdot2
    exfalso
    apply hdot
    have heq : vx * (A / S) + vy * (B / S) = (vx * A + vy * B) / S := by
      ring
    rw [heq]
    exact div_pos hdot2 hn
  · -- degenerate normal: contradicts a positive outward component
    refine ⟨le_refl _, ?_⟩
    intro hd2 hdot2
    exfalso
    apply hn
    rw [hS]
    apply Real.sqrt_pos.mpr
    rcases eq_or_ne A 0 with h0 | h0
    · rcases eq_or_ne B 0 with h1 | h1
      · rw [h0, h1] at hdot2
        simp at hdot2
      · positivity
    · positivity
  · -- strictly inside: contradicts the on-or-outside hypothesis
    refine ⟨le_refl _, ?_⟩
    intro hd2 hdot2
    exact absurd hd2 hd

/-- Witness for reflect_energy: a particle at the right tip of the unit
circle moving outward with bounce 1. -/
theorem reflect_energy_witness :
    ((0 : ℝ) ≤ 1 ∧ (1 : ℝ) ≤ 1) ∧
    (Real.sqrt ((reflect_at_boundary 1 0 1 0 0 0 1 1 1).2.2.1 ^ 2 +
        (reflect_at_boundary 1 0 1 0 0 0 1 1 1).2.2.2 ^ 2) ≤
      Real.sqrt ((1 : ℝ) ^ 2 + (0 : ℝ) ^ 2) ∧
    (1 ≤ (((1 : ℝ) - 0) / 1) ^ 2 + (((0 : ℝ) - 0) / 1) ^ 2 →
      0 < (1 : ℝ) * (2 * ((1 : ℝ) - 0) / 1 ^ 2) +
        (0 : ℝ) * (2 * ((0 : ℝ) - 0) / 1 ^ 2) →
      (Real.sqrt ((reflect_at_boundary 1 0 1 0 0 0 1 1 1).2.2.1 ^ 2 +
          (reflect_at_boundary 1 0 1 0 0 0 1 1 1).2.2.2 ^ 2) =
        Real.sqrt ((1 : ℝ) ^ 2 + (0 : ℝ) ^ 2) ↔ (1 : ℝ) = 1))) :=
  ⟨⟨by norm_num, by norm_num⟩,
    reflect_energy 1 0 1 0 0 0 1 1 1 (by norm_num) (by norm_num)⟩

/-- Helper: per particle, the loop body emits either a single region check
that caught, or a failed region check followed by one cell-based check. -/
theorem catch_one_events_shape (dm : DividerManager) (m : MaskSystem)
    (cfg : CatchingConfig) (rng : ℕ → ℚ) (i idx : ℕ) (p : Particle) :
    (catch_one dm m cfg rng i idx p).2.2.2 =
        [CatchEvent.regionCheck idx true] ∨
      ∃ b, (catch_one dm m cfg rng i idx p).2.2.2 =
        [CatchEvent.regionCheck idx false, CatchEvent.cellCheck idx b] := by
  unfold catch_one
  by_cases hc : (0 : ℚ) < dm.get_region_probability p.x
  · by_cases hu : rng i < dm.get_region_probability p.x
    · left
      simp [hc, hu]
    · right
      refine ⟨(m.try_catch_particle_by_cell p.x p.y cfg rng (i + 1)).1, ?_⟩
      simp [hc, hu]
  · right
    refine ⟨(m.try_catch_particle_by_cell p.x p.y cfg rng i).1, ?_⟩
    simp [hc]

/-- Helper: every event emitted by the per-particle loop concerns a
particle index in the processed range and is never a removal. -/
theorem catch_loop_event_bounds (dm : DividerManager) (cfg : CatchingConfig)
    (rng : ℕ → ℚ) :
    ∀ (ps : List Particle) (m : MaskSystem) (i idx : ℕ),
      ∀ e ∈ (catch_loop dm cfg rng m i idx ps).2.2.1,
        idx ≤ e.index ∧ e.index < idx + ps.length ∧ e.isRemoval = false := by
  intro ps
  induction ps with
  | nil =>
    intro m i idx e he
    simp [catch_loop] at he
  | cons p rest ih =>
    intro m i idx e he
    simp only [catch_loop, List.mem_append] at he
    rcases he with he | he
    · rcases catch_one_events_shape dm m cfg rng i idx p with h1 | ⟨b, h1⟩
      · rw [h1] at he
        simp only [List.mem_singleton] at he
        subst he
        refine ⟨le_refl _, ?_, rfl⟩
        simp [CatchEvent.index]
      · rw [h1] at he
        rcases List.mem_cons.mp he with rfl | he2
        · refine ⟨le_refl _, ?_, rfl⟩
          simp [CatchEvent.index]
        · rcases List.mem_singleton.mp he2 with rfl
          refine ⟨le_refl _, ?_, rfl⟩
          simp [CatchEvent.index]
    · have hrest := ih (catch_one dm m cfg rng i idx p).2.1
        (catch_one dm m cfg rng i idx p).2.2.1 (idx + 1) e he
      refine ⟨by omega, ?_, hrest.2.2⟩
      have := hrest.2.1
      simp only [List.length_cons]
      omega

/-- Helper: capture exclusivity over the loop events: a cell-based check
for a particle index never coexists with a successful region check for the
same index. -/
theorem catch_loop_exclusive (dm : DividerManager) (cfg : CatchingConfig)
    (rng : ℕ → ℚ) :
    ∀ (ps : List Particle) (m : MaskSystem) (i idx : ℕ) (j : ℕ) (b : Bool),
      CatchEvent.cellCheck j b ∈ (catch_loop dm cfg rng m i idx ps).2.2.1 →
      CatchEvent.regionCheck j true ∉
        (catch_loop dm cfg rng m i idx ps).2.2.1 := by
  intro ps
  induction ps with
  | nil =>
    intro m i idx j b hmem
    simp [catch_loop] at hmem
  | cons p rest ih =>
    intro m i idx j b hmem hcontra
    simp only [catch_loop, List.mem_append] at hmem hcontra
    rcases catch_one_events_shape dm m cfg rng i idx p with h1 | ⟨c, h1⟩
    · rcases hmem with hm | hm
      · rw [h1] at hm
        simp at hm
      · have hj := (catch_loop_event_bounds dm cfg rng rest
          (catch_one dm m cfg rng i idx p).2.1
          (catch_one dm m cfg rng i idx p).2.2.1 (idx + 1)
          (CatchEvent.cellCheck j b) hm).1
        simp only [CatchEvent.index] at hj
        rcases hcontra with hc | hc
        · rw [h1] at hc
          have hji : j = idx := by simpa using hc
          omega
        · exact ih (catch_one dm m cfg rng i idx p).2.1
            (catch_one dm m cfg rng i idx p).2.2.1 (idx + 1) j b hm hc
    · rcases hcontra with hc | hc
      · rw [h1] at hc
        simp at hc
      · have hj := (catch_loop_event_bounds dm cfg rng rest
          (catch_one dm m cfg rng i idx p).2.1
          (catch_one dm m cfg rng i idx p).2.2.1 (idx + 1)
          (CatchEvent.regionCheck j true) hc).1
        simp only [CatchEvent.index] at hj
        rcases hmem with hm | hm
        · rw [h1] at hm
          simp only [List.mem_cons] at hm
          rcases hm with hm | hm | hm
          · exact absurd hm (by simp)
          · rw [CatchEvent.cellCheck.injEq] at hm
            obtain ⟨hji, -⟩ := hm
            omega
          · simp at hm
        · exact ih (catch_one dm m cfg rng i idx p).2.1
            (catch_one dm m cfg rng i idx p).2.2.1 (idx + 1) j b hm hc

/-- C1: in one run of process_particle_catching, a particle for which the
cell-based check was invoked was not caught by the region check (so each
particle faces at most one of the two capture mechanisms), and the event
trace splits into the per-particle check events followed by all removal
events (captured particles are queued and removed only after the loop). -/
theorem capture_exclusive_and_queued (dm : DividerManager) (m : MaskSystem)
    (cfg : CatchingConfig) (rng : ℕ → ℚ) (i : ℕ)
    (particles : List Particle) :
    (∀ j b, CatchEvent.cellCheck j b ∈
        (process_particle_catching dm m cfg rng i particles).2.2.2 →
      CatchEvent.regionCheck j true ∉
        (process_particle_catching dm m cfg rng i particles).2.2.2) ∧
    (∃ checks removals,
      (process_particle_catching dm m cfg rng i particles).2.2.2 =
        checks ++ removals ∧
      (∀ e ∈ checks, e.isRemoval = false) ∧
      (∀ e ∈ removals, e.isRemoval = true)) := by
  constructor
  · intro j b hmem hcontra
    simp only [process_particle_catching, List.mem_append] at hmem hcontra
    rcases hmem with hm | hm
    · rcases hcontra with hc | hc
      · exact catch_loop_exclusive dm cfg rng particles m i 0 j b hm hc
      · rcases List.mem_map.mp hc with ⟨a, _, ha⟩
        simp at ha
    · rcases List.mem_map.mp hm with ⟨a, _, ha⟩
      simp at ha
  · refine ⟨(catch_loop dm cfg rng m i 0 particles).2.2.1,
      ((catch_loop dm cfg rng m i 0 particles).2.2.2).map CatchEvent.removal,
      ?_, ?_, ?_⟩
    · simp [process_particle_catching]
    · intro e he
      exact (catch_loop_event_bounds dm cfg rng particles m i 0 e he).2.2
    · intro e he
      rcases List.mem_map.mp he with ⟨a, _, rfl⟩
      rfl

/-- Witness for capture_exclusive_and_queued on a concrete one-particle
state. -/
theorem capture_exclusive_and_queued_witness :
    (∀ j b, CatchEvent.cellCheck j b ∈
        (process_particle_catching (DividerManager.init [] (150, 100, 150, 50))
          exampleMask ⟨none, none, none⟩ (fun _ => 0) 0
          [⟨150, 100⟩]).2.2.2 →
      CatchEvent.regionCheck j true ∉
        (process_particle_catching (DividerManager.init [] (150, 100, 150, 50))
          exampleMask ⟨none, none, none⟩ (fun _ => 0) 0
          [⟨150, 100⟩]).2.2.2) ∧
    (∃ checks removals,
      (process_particle_catching (DividerManager.init [] (150, 100, 150, 50))
          exampleMask ⟨none, none, none⟩ (fun _ => 0) 0
          [⟨150, 100⟩]).2.2.2 =
        checks ++ removals ∧
      (∀ e ∈ checks, e.isRemoval = false) ∧
      (∀ e ∈ removals, e.isRemoval = true)) :=
  capture_exclusive_and_queued (DividerManager.init [] (150, 100, 150, 50))
    exampleMask ⟨none, none, none⟩ (fun _ => 0) 0 [⟨150, 100⟩]
